import Mathlib

/-!
Verification of the react-hooks library (`src/index.js`) against its
natural-language specification.

The hooks are shallowly embedded: React state cells become explicit state
records, effects become explicit state-transition functions, and the external
platform capabilities (the key-value `storage` engine, `JSON`
stringify/parse, the cookie jar, DOM listener registration) become injected
parameters or small concrete models, following the spec's own guidance that
each ambient capability is "an injected capability/interface parameter with
a default binding".  JavaScript exceptions are modelled with `Except`: a
primitive that throws returns `Except.error`, and a `try/catch` block is a
`match` on that result.
-/

/-! ### A string key-value map, the state of a working `localStorage`-style engine -/

/-- `getItem` semantics of a map-backed store: the stored string, or `none`
when the key is absent. -/
def lookupKV : List (String × String) → String → Option String
  | [], _ => none
  | (k, v) :: rest, key => if k = key then some v else lookupKV rest key

/-- `setItem` semantics of a map-backed store: overwrite or append. -/
def insertKV : List (String × String) → String → String → List (String × String)
  | [], key, val => [(key, val)]
  | (k, v) :: rest, key, val =>
    if k = key then (key, val) :: rest else (k, v) :: insertKV rest key val

/-- Cookie deletion semantics: drop every entry under the name. -/
def removeKV : List (String × String) → String → List (String × String)
  | [], _ => []
  | (k, v) :: rest, key =>
    if k = key then removeKV rest key else (k, v) :: removeKV rest key

/-! ### The pluggable storage engine (spec section 6, "Storage capability")

`St` is the engine's mutable state.  `getItem` returns the stored string or
`none` for an absent key, and either may throw (`Except.error`), as a
quota-exhausted or disabled store does. -/

structure StorageEngine (St : Type) where
  getItem : St → String → Except Unit (Option String)
  setItem : St → String → String → Except Unit St

/-- A functional store backed by a string map (a working `window.localStorage`). -/
def mapStorage : StorageEngine (List (String × String)) where
  getItem st key := Except.ok (lookupKV st key)
  setItem st key val := Except.ok (insertKV st key val)

/-- A non-functional store: `getItem` and `setItem` always raise (the tests
use the `Object` class for this role). -/
def brokenStorage : StorageEngine Unit where
  getItem _ _ := Except.error ()
  setItem _ _ _ := Except.error ()

/-- The `JSON.stringify` / `JSON.parse` pair, injected: `parse` may throw
(`Except.error`) on malformed text. -/
structure Codec (σ : Type) where
  stringify : σ → String
  parse : String → Except Unit σ

/-! ### `useStoredReducer` (src/index.js lines 7-42) -/

/-- The `try` block of the lazy initializer passed to `useReducer`
(lines 22-27): read `storage.getItem(storageKey)`; a non-empty string is
truthy, so it is handed to `JSON.parse`; `null` or `""` falls through
(`none`).  Any throw from `getItem` or `parse` surfaces as `Except.error`,
to be caught by the `catch`. -/
def storedInitTry {σ St : Type} (C : Codec σ) (E : StorageEngine St)
    (storageKey : String) (st : St) : Except Unit (Option σ) := do
  let item ← E.getItem st storageKey
  match item with
  | some s =>
    if s ≠ "" then do
      let v ← C.parse s
      pure (some v)
    else
      pure none
  | none => pure none

/-- The whole initializer (lines 19-30): the `catch` logs and falls through,
and both the absent-item path and the caught path return
`init initialState`. -/
def storedInit {σ σ0 St : Type} (C : Codec σ) (E : StorageEngine St)
    (storageKey : String) (init : σ0 → σ) (initialState : σ0) (st : St) : σ :=
  match storedInitTry C E storageKey st with
  | Except.ok (some v) => v
  | Except.ok none => init initialState
  | Except.error _ => init initialState

/-- The body of the persistence `useEffect` before its `catch`
(line 35): `storage.setItem(storageKey, JSON.stringify(state))`. -/
def persistEffectTry {σ St : Type} (C : Codec σ) (E : StorageEngine St)
    (storageKey : String) (st : St) (state : σ) : Except Unit St :=
  E.setItem st storageKey (C.stringify state)

/-- The persistence effect with its `catch` (lines 33-39): a write error is
logged and swallowed, leaving the store untouched; no exception escapes. -/
def persistEffect {σ St : Type} (C : Codec σ) (E : StorageEngine St)
    (storageKey : String) (st : St) (state : σ) : St :=
  match persistEffectTry C E storageKey st state with
  | Except.ok st2 => st2
  | Except.error _ => st

/-- One mounted `useStoredReducer` instance: its in-memory state and the
storage engine's state. -/
structure HookInstance (σ St : Type) where
  state : σ
  store : St

/-- Mounting the hook: the lazy initializer computes the starting state, and
the persistence effect runs once with it (the effect's dependency `[state]`
always fires on first render). -/
def mountStored {σ σ0 St : Type} (C : Codec σ) (E : StorageEngine St)
    (storageKey : String) (init : σ0 → σ) (initialState : σ0) (st : St) :
    HookInstance σ St :=
  let s0 := storedInit C E storageKey init initialState st
  ⟨s0, persistEffect C E storageKey st s0⟩

/-- `dispatch(a)`: the reducer computes the next state and the persistence
effect re-fires with it. -/
def dispatchStep {σ St α : Type} (C : Codec σ) (E : StorageEngine St)
    (reducer : σ → α → σ) (storageKey : String)
    (h : HookInstance σ St) (a : α) : HookInstance σ St :=
  let s2 := reducer h.state a
  ⟨s2, persistEffect C E storageKey h.store s2⟩

/-- A concrete serialisation used by witnesses: a natural `n` is stored as
`n + 1` copies of the letter x, so the encoding of every state is a
non-empty string that parses back exactly. -/
def natCodec : Codec Nat where
  stringify n := String.mk (List.replicate (n + 1) 'x')
  parse s := Except.ok (s.data.length - 1)

/-! ### `useDelayedAsync` (src/index.js lines 82-112)

The tracker's three `useState` cells, as one record.  The JavaScript `null`
sentinel is `none`. -/

structure AsyncState (ρ ε : Type) where
  result : Option ρ
  error : Option ε
  loading : Bool
deriving DecidableEq

/-- The three initial `useState` values: `result = null`, `error = null`,
`loading = false` (lines 88-90). -/
def initialAsync {ρ ε : Type} : AsyncState ρ ε := ⟨none, none, false⟩

/-- The synchronous prefix of `execute` (lines 95-97): `setLoading(true)`,
`setResult(null)`, `setError(null)`. -/
def executeStart {ρ ε : Type} (_s : AsyncState ρ ε) : AsyncState ρ ε :=
  ⟨none, none, true⟩

/-- The `.then` handler's state effect (lines 100-103): `setResult(response)`,
`setLoading(false)`; `error` is left as it is. -/
def settleResolve {ρ ε : Type} (s : AsyncState ρ ε) (response : ρ) : AsyncState ρ ε :=
  { s with result := some response, loading := false }

/-- The `.catch` handler's state effect (lines 104-107): `setError(error)`,
`setLoading(false)`; `result` is left as it is. -/
def settleReject {ρ ε : Type} (s : AsyncState ρ ε) (e : ε) : AsyncState ρ ε :=
  { s with error := some e, loading := false }

/-! A promise whose handlers synchronously mutate tracker state is modelled
as a state-passing computation that yields the settled outcome:
fulfilment `Except.ok` or rejection `Except.error`. -/

def SPromise (St ε ρ : Type) : Type := St → St × Except ε ρ

/-- JavaScript `promise.then(f)`: run the fulfilment handler on a fulfilled
outcome, pass a rejection through untouched. -/
def jsThen {St ε ρ ρ2 : Type} (p : SPromise St ε ρ)
    (f : ρ → St → St × Except ε ρ2) : SPromise St ε ρ2 := fun s =>
  match p s with
  | (s1, Except.ok v) => f v s1
  | (s1, Except.error e) => (s1, Except.error e)

/-- JavaScript `promise.catch(g)`: run the rejection handler on a rejected
outcome, pass fulfilment through untouched. -/
def jsCatch {St ε ρ : Type} (p : SPromise St ε ρ)
    (g : ε → St → St × Except ε ρ) : SPromise St ε ρ := fun s =>
  match p s with
  | (s1, Except.ok v) => (s1, Except.ok v)
  | (s1, Except.error e) => g e s1

/-- A full run of `execute` (lines 94-108) against an operation whose
eventual outcome is `outcome`: the synchronous clear-and-load prefix, then
`asyncFunction().then(...).catch(...)`.  Both handlers return `undefined`,
so each yields a fulfilled `Except.ok ()`.  The second component is the
settled outcome of the promise `execute` returns to its caller. -/
def executeRun {ρ ε : Type} (outcome : Except ε ρ) (s : AsyncState ρ ε) :
    AsyncState ρ ε × Except ε Unit :=
  jsCatch
    (jsThen (fun st => (st, outcome))
      (fun response st => (settleResolve st response, Except.ok ())))
    (fun e st => (settleReject st e, Except.ok ()))
    (executeStart s)

/-! Interleavings of the tracker: with overlapping calls each settlement
handler can fire at any later time (the spec notes there is no
generation-counter guard), so a history is a list of events. -/

inductive AsyncEvent (ρ ε : Type) where
  | exec : AsyncEvent ρ ε
  | resolve : ρ → AsyncEvent ρ ε
  | reject : ε → AsyncEvent ρ ε

/-- One event applied to the tracker state: `exec` is the synchronous prefix
of `execute`; `resolve`/`reject` are the `.then`/`.catch` handlers of some
in-flight call firing. -/
def applyEvent {ρ ε : Type} (s : AsyncState ρ ε) : AsyncEvent ρ ε → AsyncState ρ ε
  | AsyncEvent.exec => executeStart s
  | AsyncEvent.resolve v => settleResolve s v
  | AsyncEvent.reject e => settleReject s e

/-- The tracker state after a history of events. -/
def runEvents {ρ ε : Type} (s : AsyncState ρ ε) (es : List (AsyncEvent ρ ε)) :
    AsyncState ρ ε :=
  es.foldl applyEvent s

/-- Is the event a settlement (a `.then` or `.catch` handler firing)? -/
def isSettle {ρ ε : Type} : AsyncEvent ρ ε → Bool
  | AsyncEvent.exec => false
  | AsyncEvent.resolve _ => true
  | AsyncEvent.reject _ => true

/-- Settlement count threaded from a starting value: reset to zero by each
`execute`, bumped by each settlement. -/
def settleCountFrom {ρ ε : Type} (n : Nat) (es : List (AsyncEvent ρ ε)) : Nat :=
  es.foldl (fun m e => match e with | AsyncEvent.exec => 0 | _ => m + 1) n

/-- How many settlements have fired since the most recent `execute` call
(counting from the start of the history when there is none). -/
def settleCountSinceExec {ρ ε : Type} (es : List (AsyncEvent ρ ε)) : Nat :=
  settleCountFrom 0 es

/-! ### `useAsync` (src/index.js lines 115-128) -/

/-- The dependency array of the auto-invoking effect, as a function of the
render's operation identity: the source passes the literal `[]`
(line 125), so the identity does not enter the dependencies.  Identities
are modelled as tokens compared with `Object.is`. -/
def useAsyncEffectDeps (_opId : Nat) : List Nat := []

/-- React's per-render effect bookkeeping for that effect: the first render
runs it; later renders rerun it exactly when the dependency array differs
positionally from the previous one.  Carries (previous deps, run count). -/
def useAsyncStep (p : Option (List Nat) × Nat) (opId : Nat) :
    Option (List Nat) × Nat :=
  let deps := useAsyncEffectDeps opId
  match p.1 with
  | none => (some deps, p.2 + 1)
  | some old => if old == deps then (some deps, p.2) else (some deps, p.2 + 1)

/-- Number of times `useAsync` invokes `execute` across a sequence of
renders whose supplied operations have the given identities. -/
def useAsyncExecCount (ids : List Nat) : Nat :=
  (ids.foldl useAsyncStep (none, 0)).2

/-! ### `useDeepCompareMemo` (src/index.js lines 131-147) -/

/-- JavaScript values as passed for dependencies: arrays and plain objects
as cons-structures, plus the primitives the scenarios need.  `undef` is
`undefined`, the `key` field of the initial `useRef({})` cell. -/
inductive JVal where
  | undef : JVal
  | str : String → JVal
  | arrNil : JVal
  | arrCons : JVal → JVal → JVal
  | objNil : JVal
  | objCons : String → JVal → JVal → JVal
deriving DecidableEq, BEq

/-- The third-party `dequal` routine on these values: recursive structural
equality (the spec's "generic deep-equality primitive"). -/
def dequal (a b : JVal) : Bool := a == b

/-- One render of `useDeepCompareMemo` (lines 142-146): the cell is
`ref.current`, a `(key, value)` pair starting as `{}` i.e. both fields
`undefined`; `ref.current` itself is always truthy, so the guard reduces to
`!dequal(dependencies, ref.current.key)`.  `computed` is what `func()`
returns this render; the Boolean reports whether `func` was invoked. -/
def memoRender (cell : JVal × JVal) (deps : JVal) (computed : JVal) :
    (JVal × JVal) × Bool :=
  if dequal deps cell.1 then (cell, false) else ((deps, computed), true)

/-- The initial `useRef({})` cell: `key` and `value` both `undefined`. -/
def memoInitCell : JVal × JVal := (JVal.undef, JVal.undef)

/-- A sequence of renders, each with its dependency value and the value
`func()` would compute; returns the final cell and the number of times
`func` was invoked. -/
def memoRun (cell : JVal × JVal) : List (JVal × JVal) → (JVal × JVal) × Nat
  | [] => (cell, 0)
  | (deps, computed) :: rest =>
    let step := memoRender cell deps computed
    let tail := memoRun step.1 rest
    (tail.1, (if step.2 then 1 else 0) + tail.2)

/-- The spec's three-render scenario: dependencies `[{a: 'b'}]`, then a
fresh object `[{a: 'b'}]`, then `[{a: 'c'}]`; `func` would compute the
distinct values one, two, three on the respective renders. -/
def memoScenario : List (JVal × JVal) :=
  [ (JVal.arrCons (JVal.objCons "a" (JVal.str "b") JVal.objNil) JVal.arrNil,
     JVal.str "one"),
    (JVal.arrCons (JVal.objCons "a" (JVal.str "b") JVal.objNil) JVal.arrNil,
     JVal.str "two"),
    (JVal.arrCons (JVal.objCons "a" (JVal.str "c") JVal.objNil) JVal.arrNil,
     JVal.str "three") ]

/-! ### `useOnClickOutSide` (src/index.js lines 170-201) -/

/-- One `document.addEventListener(type, listener, {capture})` registration. -/
structure ListenerReg where
  eventType : String
  capture : Bool
deriving DecidableEq

/-- The document's listener registry plus the number of times the saved
handler has been invoked. -/
structure ClickWorld where
  listeners : List ListenerReg
  handlerCalls : Nat
deriving DecidableEq

/-- Mounting the hook: the effect at lines 186-200 registers exactly one
listener, with the event-type string literal from line 196 and
`{capture: true}`. -/
def clickOutsideMount : ClickWorld :=
  ⟨[⟨"onClick", true⟩], 0⟩

/-- Unmounting: the cleanup at lines 197-199 removes that same registration. -/
def clickOutsideUnmount (w : ClickWorld) : ClickWorld :=
  ⟨w.listeners.filter (fun r => !(r == ⟨"onClick", true⟩)), w.handlerCalls⟩

/-- The listener body (lines 187-194): do nothing when the ref is unset or
the referenced element contains the click target, otherwise invoke the
latest saved handler once.  Elements and targets are node ids; `contains`
is the DOM containment test. -/
def listenerBody (refCurrent : Option Nat) (contains : Nat → Nat → Bool)
    (target : Nat) (calls : Nat) : Nat :=
  match refCurrent with
  | none => calls
  | some el => if contains el target then calls else calls + 1

/-- A user click on `target`: the browser dispatches a DOM event whose type
is the string click, and every document listener registered for exactly
that type runs (capturing listeners run on the capture phase; with a single
listener the phase does not matter). -/
def userClick (w : ClickWorld) (refCurrent : Option Nat)
    (contains : Nat → Nat → Bool) (target : Nat) : ClickWorld :=
  ⟨w.listeners,
   (w.listeners.filter (fun r => r.eventType == "click")).foldl
     (fun calls _ => listenerBody refCurrent contains target calls)
     w.handlerCalls⟩

/-! ### `useCookie` (src/index.js lines 267-300) -/

/-- JavaScript values passed to `update`, with their `String(...)`
conversion.  Only the shapes the hook can meet are needed. -/
inductive CVal where
  | vnum : Int → CVal
  | vstr : String → CVal
  | vbool : Bool → CVal
deriving DecidableEq

/-- The `String(value)` conversion. -/
def toJSString : CVal → String
  | CVal.vnum n => toString n
  | CVal.vstr s => s
  | CVal.vbool b => if b then "true" else "false"

/-- The js-cookie capability: a jar of name-to-string entries, plus a record
of the options object last forwarded to `Cookies.set` (to state that
`options` is passed through unmodified).  `Ω` is the caller's open options
type. -/
structure CookieOps (Ω : Type) where
  jar : List (String × String)
  lastSetOptions : Option Ω

/-- `Cookies.set(name, value, options)`: cookies store text, so the written
entry is the string form of the value; `options` is forwarded verbatim. -/
def cookiesSet {Ω : Type} (c : CookieOps Ω) (name : String) (v : CVal)
    (options : Ω) : CookieOps Ω :=
  ⟨insertKV c.jar name (toJSString v), some options⟩

/-- `Cookies.remove(name)`: delete the entry. -/
def cookiesRemove {Ω : Type} (c : CookieOps Ω) (name : String) : CookieOps Ω :=
  ⟨removeKV c.jar name, c.lastSetOptions⟩

/-- One mounted `useCookie` instance: the in-memory `value` cell (`none` is
the JavaScript `null` sentinel; otherwise the held string) and the cookie
capability's state. -/
structure CookieHook (Ω : Type) where
  value : Option String
  cookies : CookieOps Ω

/-- `updateCookie` (lines 287-297): on `null`, `setValue(null)` then
`Cookies.remove(cookieName)`; otherwise `setValue(String(value))` then
`Cookies.set(cookieName, value, options)`. -/
def updateCookie {Ω : Type} (h : CookieHook Ω) (cookieName : String)
    (v : Option CVal) (options : Ω) : CookieHook Ω :=
  match v with
  | none => ⟨none, cookiesRemove h.cookies cookieName⟩
  | some cv => ⟨some (toJSString cv), cookiesSet h.cookies cookieName cv options⟩

/-! ## Helper lemmas -/

theorem lookupKV_insertKV (m : List (String × String)) (k v : String) :
    lookupKV (insertKV m k v) k = some v := by
  induction m with
  | nil => simp [insertKV, lookupKV]
  | cons p rest ih =>
    by_cases h : p.1 = k
    · simp [insertKV, lookupKV, h]
    · simp [insertKV, lookupKV, h, ih]

theorem lookupKV_removeKV (m : List (String × String)) (k : String) :
    lookupKV (removeKV m k) k = none := by
  induction m with
  | nil => simp [removeKV, lookupKV]
  | cons p rest ih =>
    by_cases h : p.1 = k
    · simp [removeKV, h, ih]
    · simp [removeKV, lookupKV, h, ih]

/-- Reading a functional map-backed store never throws and returns exactly
the map lookup. -/
theorem mapStorage_getItem (st : List (String × String)) (key : String) :
    mapStorage.getItem st key = Except.ok (lookupKV st key) := rfl

/-- The starting state of the hook when the store holds a non-empty,
parseable string under the key: the parsed value, whatever `init` is. -/
theorem storedInit_of_lookup {σ σ0 : Type} (C : Codec σ)
    (key : String) (init : σ0 → σ) (S0 : σ0)
    (st : List (String × String)) (str : String) (v : σ)
    (hlook : lookupKV st key = some str) (hne : str ≠ "")
    (hparse : C.parse str = Except.ok v) :
    storedInit C mapStorage key init S0 st = v := by
  simp [storedInit, storedInitTry, mapStorage, hlook, hne, hparse,
    Bind.bind, Except.bind, Pure.pure, Except.pure]

/-- The tracker invariant threaded through a history: if the pending count
is zero both fields are clear, and if it is one at most one is set. -/
theorem asyncInv {ρ ε : Type} (es : List (AsyncEvent ρ ε)) :
    ∀ (s : AsyncState ρ ε) (n : Nat),
      (n = 0 → s.result = none ∧ s.error = none) →
      (n = 1 → s.result = none ∨ s.error = none) →
      (settleCountFrom n es = 0 →
        (runEvents s es).result = none ∧ (runEvents s es).error = none) ∧
      (settleCountFrom n es = 1 →
        (runEvents s es).result = none ∨ (runEvents s es).error = none) := by
  induction es with
  | nil =>
    intro s n h0 h1
    exact ⟨h0, h1⟩
  | cons e rest ih =>
    intro s n h0 h1
    have hrun : runEvents s (e :: rest) = runEvents (applyEvent s e) rest := rfl
    cases e with
    | exec =>
      have hcnt : settleCountFrom n (AsyncEvent.exec :: rest) = settleCountFrom 0 rest := rfl
      rw [hrun, hcnt]
      exact ih (executeStart s) 0 (fun _ => ⟨rfl, rfl⟩)
        (fun hn => absurd hn (by decide))
    | resolve v =>
      have hcnt : settleCountFrom n (AsyncEvent.resolve v :: rest)
          = settleCountFrom (n + 1) rest := rfl
      rw [hrun, hcnt]
      refine ih (settleResolve s v) (n + 1)
        (fun hn => absurd hn (Nat.succ_ne_zero n)) (fun hn => ?_)
      have hn0 : n = 0 := Nat.succ_injective hn
      have hboth := h0 hn0
      exact Or.inr (by simp [settleResolve, hboth.2])
    | reject e2 =>
      have hcnt : settleCountFrom n (AsyncEvent.reject e2 :: rest)
          = settleCountFrom (n + 1) rest := rfl
      rw [hrun, hcnt]
      refine ih (settleReject s e2) (n + 1)
        (fun hn => absurd hn (Nat.succ_ne_zero n)) (fun hn => ?_)
      have hn0 : n = 0 := Nat.succ_injective hn
      have hboth := h0 hn0
      exact Or.inl (by simp [settleReject, hboth.1])

/-- Once the auto-invoking effect of `useAsync` has run once, later renders
leave its bookkeeping unchanged: the literal `[]` dependency array never
differs from itself. -/
theorem useAsyncStep_fixed (rest : List Nat) (n : Nat) :
    rest.foldl useAsyncStep (some ([] : List Nat), n) = (some [], n) := by
  induction rest with
  | nil => rfl
  | cons id2 rest2 ih =>
    have hstep : useAsyncStep (some ([] : List Nat), n) id2 = (some [], n) := rfl
    calc (id2 :: rest2).foldl useAsyncStep (some ([] : List Nat), n)
        = rest2.foldl useAsyncStep (useAsyncStep (some [], n) id2) := rfl
      _ = rest2.foldl useAsyncStep (some [], n) := by rw [hstep]
      _ = (some [], n) := ih

/-! ## Claim theorems -/

/-- Claim C1: for every codec, `init` function, initial state and key, a
first mount of `useStoredReducer` against a store whose entry for the key
is absent yields the starting state `init(S0)` (the stored-item branch is
not taken: the result is `init S0` whatever the store held elsewhere), and
the paired persistence effect writes `JSON.stringify(init(S0))` under that
key. -/
theorem useStoredReducer_first_mount_empty {σ σ0 : Type} (C : Codec σ)
    (init : σ0 → σ) (S0 : σ0) (key : String) (st : List (String × String))
    (habsent : lookupKV st key = none) :
    (mountStored C mapStorage key init S0 st).state = init S0 ∧
    lookupKV (mountStored C mapStorage key init S0 st).store key
      = some (C.stringify (init S0)) := by
  have hinit : storedInit C mapStorage key init S0 st = init S0 := by
    simp [storedInit, storedInitTry, mapStorage, habsent, Bind.bind,
      Except.bind, Pure.pure, Except.pure]
  refine ⟨hinit, ?_⟩
  show lookupKV (persistEffect C mapStorage key st
    (storedInit C mapStorage key init S0 st)) key = _
  rw [hinit]
  simp [persistEffect, persistEffectTry, mapStorage, lookupKV_insertKV]

/-- Witness for C1 at a concrete instance: the empty store, the key k, the
identity `init` and initial state 0 under the unary codec. -/
theorem useStoredReducer_first_mount_empty_witness :
    lookupKV [] "k" = none ∧
    (mountStored natCodec mapStorage "k" (fun n => n) 0 []).state = 0 ∧
    lookupKV (mountStored natCodec mapStorage "k" (fun n => n) 0 []).store "k"
      = some (natCodec.stringify 0) :=
  ⟨rfl,
   (useStoredReducer_first_mount_empty natCodec (fun n => n) 0 "k" [] rfl).1,
   (useStoredReducer_first_mount_empty natCodec (fun n => n) 0 "k" [] rfl).2⟩

/-- Claim C2: after `dispatch(a)` the value persisted under the key is
`JSON.stringify(reducer(priorState, a))`; and whenever that encoding
round-trips (`parse` inverts `stringify`, and the encoding is the
non-empty string `JSON.stringify` always produces), a fresh mount with the
same key and store parses it back and uses it as the starting state, for
every `init` — so `init` is bypassed. -/
theorem useStoredReducer_dispatch_roundtrip {σ σ0 α : Type} (C : Codec σ)
    (reducer : σ → α → σ) (init : σ0 → σ) (S0 : σ0) (key : String)
    (h : HookInstance σ (List (String × String))) (a : α) :
    lookupKV (dispatchStep C mapStorage reducer key h a).store key
      = some (C.stringify (reducer h.state a)) ∧
    (C.parse (C.stringify (reducer h.state a))
        = Except.ok (reducer h.state a) →
     C.stringify (reducer h.state a) ≠ "" →
     (mountStored C mapStorage key init S0
        (dispatchStep C mapStorage reducer key h a).store).state
       = reducer h.state a) := by
  have hstore : lookupKV (dispatchStep C mapStorage reducer key h a).store key
      = some (C.stringify (reducer h.state a)) := by
    simp [dispatchStep, persistEffect, persistEffectTry, mapStorage,
      lookupKV_insertKV]
  refine ⟨hstore, fun hparse hne => ?_⟩
  exact storedInit_of_lookup C key init S0 _ _ _ hstore hne hparse

/-- Witness for C2: an adding reducer over naturals with the unary codec,
prior state 1, action 2; the store ends up holding the encoding of 3 and a
fresh mount starts from 3. -/
theorem useStoredReducer_dispatch_roundtrip_witness :
    lookupKV (dispatchStep natCodec mapStorage (fun s a => s + a) "k"
        ⟨1, []⟩ 2).store "k" = some (natCodec.stringify 3) ∧
    natCodec.parse (natCodec.stringify 3) = Except.ok 3 ∧
    natCodec.stringify 3 ≠ "" ∧
    (mountStored natCodec mapStorage "k" (fun n => n + 100) 0
        (dispatchStep natCodec mapStorage (fun s a => s + a) "k"
          ⟨1, []⟩ 2).store).state = 3 :=
  ⟨(useStoredReducer_dispatch_roundtrip natCodec (fun s a => s + a)
      (fun n => n + 100) 0 "k" ⟨1, []⟩ 2).1,
   rfl,
   by decide,
   (useStoredReducer_dispatch_roundtrip natCodec (fun s a => s + a)
      (fun n => n + 100) 0 "k" ⟨1, []⟩ 2).2 rfl (by decide)⟩

/-- Claim C3: against a store whose `getItem` and `setItem` always raise,
the raw read and write paths do raise, yet the hook's initializer and
persistence effect — being the `try/catch`-wrapped totalisations of those
paths — still return plain values, so no exception escapes to the caller:
a fresh mount falls back to `init(S0)`, and every `dispatch(a)` still
moves the in-memory state to `reducer(priorState, a)`. -/
theorem useStoredReducer_broken_storage {σ σ0 α : Type} (C : Codec σ)
    (reducer : σ → α → σ) (init : σ0 → σ) (S0 : σ0) (key s : String)
    (h : HookInstance σ Unit) (a : α) :
    brokenStorage.getItem () key = Except.error () ∧
    brokenStorage.setItem () key s = Except.error () ∧
    storedInitTry C brokenStorage key () = Except.error () ∧
    persistEffectTry C brokenStorage key () h.state = Except.error () ∧
    (mountStored C brokenStorage key init S0 ()).state = init S0 ∧
    (dispatchStep C brokenStorage reducer key h a).state
      = reducer h.state a :=
  ⟨rfl, rfl, rfl, rfl, rfl, rfl⟩

/-- Claim C4: the manual tracker starts as
`{result:null, error:null, loading:false}`; `execute()` synchronously
clears both fields and sets `loading:true`; a run of `execute` whose
operation resolves with `v` ends at `{result:v, error:null, loading:false}`
and one whose operation rejects with `r` ends at
`{result:null, error:r, loading:false}`. -/
theorem useDelayedAsync_lifecycle {ρ ε : Type} (s : AsyncState ρ ε)
    (v : ρ) (r : ε) :
    (initialAsync : AsyncState ρ ε) = ⟨none, none, false⟩ ∧
    executeStart s = ⟨none, none, true⟩ ∧
    (executeRun (Except.ok v) s).1 = ⟨some v, none, false⟩ ∧
    (executeRun (Except.error r) s).1 = ⟨none, some r, false⟩ :=
  ⟨rfl, rfl, rfl, rfl⟩

/-- Claim C5, counterexample: the claimed invariant — after any settlement,
`result` and `error` are mutually exclusive in every reachable tracker
state, including across re-executions and stale settlements — is false.
With two calls in flight (`execute` twice), the first call's resolution
with 1 and then the second call's rejection with 2 leave
`result = some 1` and `error = some 2` simultaneously: the `.catch`
handler does not clear `result`, and no generation guard drops the stale
resolution. -/
theorem useDelayedAsync_exclusive_counterexample :
    ¬ (∀ es : List (AsyncEvent Nat Nat), es.any isSettle = true →
        (runEvents initialAsync es).result = none ∨
        (runEvents initialAsync es).error = none) := by
  intro hall
  have h2 := hall [AsyncEvent.exec, AsyncEvent.exec,
    AsyncEvent.resolve 1, AsyncEvent.reject 2] (by decide)
  revert h2
  decide

/-- Claim C5 as amended: the mutual-exclusion invariant holds at every
instant at which at most one settlement has fired since the most recent
`execute()` — in particular whenever calls do not overlap.  (With
overlapping calls a stale resolution plus a fresh rejection can set both
fields, as the counterexample shows.) -/
theorem useDelayedAsync_mutual_exclusion_single_flight {ρ ε : Type}
    (es : List (AsyncEvent ρ ε)) (hle : settleCountSinceExec es ≤ 1) :
    (runEvents initialAsync es).result = none ∨
    (runEvents initialAsync es).error = none := by
  have h := asyncInv es initialAsync 0 (fun _ => ⟨rfl, rfl⟩)
    (fun hn => absurd hn (by decide))
  rcases Nat.le_one_iff_eq_zero_or_eq_one.mp hle with h0 | h1
  · exact Or.inl (h.1 h0).1
  · exact h.2 h1

/-- Witness for the amended C5 at a concrete single-flight history: one
`execute` followed by its own resolution. -/
theorem useDelayedAsync_mutual_exclusion_witness :
    settleCountSinceExec
      ([AsyncEvent.exec, AsyncEvent.resolve 5] : List (AsyncEvent Nat Nat))
      ≤ 1 ∧
    ((runEvents initialAsync
        ([AsyncEvent.exec, AsyncEvent.resolve 5] :
          List (AsyncEvent Nat Nat))).result = none ∨
     (runEvents initialAsync
        ([AsyncEvent.exec, AsyncEvent.resolve 5] :
          List (AsyncEvent Nat Nat))).error = none) :=
  ⟨by decide,
   useDelayedAsync_mutual_exclusion_single_flight
     [AsyncEvent.exec, AsyncEvent.resolve 5] (by decide)⟩

/-- Claim C6, counterexample: the claim that `execute` is re-invoked when
the identity of the supplied operation changes is false.  The effect's
dependency array is the literal `[]`, so across two renders whose
operation identities differ (0, then 1) the invocation count stays at 1
instead of rising to 2. -/
theorem useAsync_reinvoke_counterexample :
    ¬ (∀ (pre : List Nat) (id1 id2 : Nat), id1 ≠ id2 →
        useAsyncExecCount (pre ++ [id1, id2])
          = useAsyncExecCount (pre ++ [id1]) + 1) := by
  intro hall
  have h := hall [] 0 1 (by decide)
  revert h
  decide

/-- Claim C6 as amended: `execute` is invoked exactly once, automatically,
at first activation — so `loading` is `true` immediately with no explicit
`execute()` call — and it is never re-invoked on subsequent activations,
even when the identity of the supplied operation changes. -/
theorem useAsync_execute_exactly_once (ids : List Nat) (hne : ids ≠ []) :
    useAsyncExecCount ids = 1 ∧
    (executeStart (initialAsync : AsyncState Nat Nat)).loading = true := by
  refine ⟨?_, rfl⟩
  cases ids with
  | nil => exact absurd rfl hne
  | cons id1 rest =>
    have hstep : useAsyncStep (none, 0) id1 = (some [], 1) := rfl
    calc useAsyncExecCount (id1 :: rest)
        = (rest.foldl useAsyncStep (useAsyncStep (none, 0) id1)).2 := rfl
      _ = (rest.foldl useAsyncStep (some [], 1)).2 := by rw [hstep]
      _ = 1 := by rw [useAsyncStep_fixed]

/-- Witness for the amended C6: two renders whose operation identities
differ still invoke `execute` exactly once. -/
theorem useAsync_execute_exactly_once_witness :
    (([0, 1] : List Nat) ≠ []) ∧
    (useAsyncExecCount [0, 1] = 1 ∧
     (executeStart (initialAsync : AsyncState Nat Nat)).loading = true) :=
  ⟨by decide, useAsync_execute_exactly_once [0, 1] (by decide)⟩

/-- Claim C7: `useDeepCompareMemo` recomputes exactly when `dequal` reports
the new dependency value structurally unequal to the cached one — when
equal, the previously cached cell (key and value) is returned unchanged —
and in the spec's three-render scenario (`[{a:'b'}]`, a fresh `[{a:'b'}]`,
then `[{a:'c'}]`) the wrapped function runs exactly twice: once by the end
of render 1, still once by the end of render 2, twice by the end of
render 3, leaving the third computed value cached. -/
theorem useDeepCompareMemo_recompute_iff :
    (∀ (cell : JVal × JVal) (deps computed : JVal),
      (dequal deps cell.1 = true → memoRender cell deps computed = (cell, false)) ∧
      (dequal deps cell.1 = false →
        memoRender cell deps computed = ((deps, computed), true))) ∧
    (memoRun memoInitCell (memoScenario.take 1)).2 = 1 ∧
    (memoRun memoInitCell (memoScenario.take 2)).2 = 1 ∧
    (memoRun memoInitCell memoScenario).2 = 2 ∧
    (memoRun memoInitCell memoScenario).1.2 = JVal.str "three" := by
  refine ⟨fun cell deps computed => ⟨fun h => ?_, fun h => ?_⟩,
    by decide, by decide, by decide, by decide⟩
  · simp [memoRender, h]
  · simp [memoRender, h]

/-- Witness for C7: the first render of the scenario against the fresh
cell recomputes (its dependency is unequal to the `undefined` key), and a
repeat of the same dependency against the updated cell does not. -/
theorem useDeepCompareMemo_witness :
    dequal (JVal.str "a") memoInitCell.1 = false ∧
    memoRender memoInitCell (JVal.str "a") (JVal.str "v")
      = ((JVal.str "a", JVal.str "v"), true) ∧
    dequal (JVal.str "a") (JVal.str "a", JVal.str "v").1 = true ∧
    memoRender (JVal.str "a", JVal.str "v") (JVal.str "a") (JVal.str "w")
      = ((JVal.str "a", JVal.str "v"), false) :=
  ⟨by decide,
   (useDeepCompareMemo_recompute_iff.1 memoInitCell (JVal.str "a")
      (JVal.str "v")).2 (by decide),
   by decide,
   (useDeepCompareMemo_recompute_iff.1 (JVal.str "a", JVal.str "v")
      (JVal.str "a") (JVal.str "w")).1 (by decide)⟩

/-- Claim C8 fails on the code: the mounted hook registers exactly one
capturing document-level listener, but under the event type string onClick
(src/index.js line 196), which is not the DOM click event type — the
browser dispatches clicks under the type string click — so a real click
outside the referenced element never invokes the handler (count stays 0,
the claim demands 1), even though the listener body itself would invoke it
exactly once if it ever ran.  Unmount does remove the registration. -/
theorem useOnClickOutSide_wrong_event_type :
    clickOutsideMount.listeners.map ListenerReg.eventType = ["onClick"] ∧
    clickOutsideMount.listeners.map ListenerReg.capture = [true] ∧
    ("onClick" : String) ≠ "click" ∧
    (userClick clickOutsideMount (some 0) (fun _ _ => false) 1).handlerCalls
      = 0 ∧
    listenerBody (some 0) (fun _ _ => false) 1 0 = 1 ∧
    (clickOutsideUnmount clickOutsideMount).listeners = [] :=
  ⟨rfl, rfl, by decide, by decide, rfl, by decide⟩

/-- Claim C9: `update(null)` sets the in-memory value to the null sentinel
and removes the underlying cookie; `update(v, options)` with non-null `v`
makes both the in-memory value and the stored cookie the string form of
`v`, forwarding `options` to the cookie-write primitive unmodified. -/
theorem useCookie_update {Ω : Type} (h : CookieHook Ω) (name : String)
    (cv : CVal) (options : Ω) :
    (updateCookie h name none options).value = none ∧
    lookupKV (updateCookie h name none options).cookies.jar name = none ∧
    (updateCookie h name (some cv) options).value = some (toJSString cv) ∧
    lookupKV (updateCookie h name (some cv) options).cookies.jar name
      = some (toJSString cv) ∧
    (updateCookie h name (some cv) options).cookies.lastSetOptions
      = some options :=
  ⟨rfl,
   lookupKV_removeKV h.cookies.jar name,
   rfl,
   lookupKV_insertKV h.cookies.jar name (toJSString cv),
   rfl⟩

/-- Claim C10: the promise `execute()` returns always fulfills — whether
the supplied operation resolves or rejects, the rejection is consumed by
the `.catch` handler (which merely records it in the `error` field), so no
rejected promise reaches the caller of `execute`. -/
theorem useDelayedAsync_execute_fulfills {ρ ε : Type} (outcome : Except ε ρ)
    (s : AsyncState ρ ε) :
    (executeRun outcome s).2 = Except.ok () := by
  cases outcome <;> rfl
